import Mathlib

/-!
Verification of the discordGPT conversational core (`gptbots.py`).

Shallow embedding of the conversational-memory and response-scheduling core
of `gptbots.py`.  Conventions:

* Python `float` weights are embedded as rationals (`ℚ`); every constant the
  program multiplies by (0.5, 1.2, 1.4, 0.8 … 0.4, 0.3) is exact here.
* Discord snowflake ids are embedded as `Nat`; JSON values that may carry a
  picked-message id (string, number, or null/absent) are embedded as `JVal`,
  with Python truthiness (`if picked_message_id:`) as `jvTruthy` and
  `str(...)` as `canonId`.
* The unbounded recursion of `get_ai_response` (regeneration on a degenerate
  echo) is embedded by threading the list of completion-service outcomes the
  process would observe; exhausting the list returns `none` (a fuel artifact,
  not a behavior of the code).
* Effectful steps (the `send_responses` loop body) become a pure function of
  the bot state plus an oracle record `TickInput` describing what the
  environment does that cycle (completion outcomes, whether `channel.send`
  raises, the local hour, the random draws).
-/

namespace DiscordGPT

/-- A chat participant as the core sees it: id, display name, and the
`author.bot` flag (`discord.User`/`Member`). -/
structure Author where
  id : Nat
  name : String
  bot : Bool
deriving DecidableEq, Repr

/-- The resolved message a new message replies to, as consumed by the
`Message` constructor: its author, and — when that message was itself a reply
whose `reference.resolved` exists — that target's text
(`replying_to.reference.resolved.content`). -/
structure RefInfo where
  author : Author
  refResolvedContent : Option String
deriving DecidableEq, Repr

/-- A stored message record (`class Message` of `gptbots.py`). -/
structure Message where
  author : Author
  message : String
  message_id : Nat
  replying_to : Option Author
  replying_to_replying_to : Option String
  weight : ℚ
deriving DecidableEq, Repr

/-- Source `Message.calculate_base_weight`: 0.5 for a bot author else 1.0, times 1.2
when `self.replying_to` exists and is not a bot. -/
def calculate_base_weight (author : Author) (replying_to : Option Author) : ℚ :=
  let base : ℚ := if author.bot then 1/2 else 1
  match replying_to with
  | some a => if !a.bot then base * (12/10) else base
  | none => base

/-- Source `Message.__init__`: capture the replied-to author, the grandparent text,
and the computed base weight. -/
def mkMessage (author : Author) (content : String) (mid : Nat)
    (replying_to : Option RefInfo) : Message :=
  { author := author
    message := content
    message_id := mid
    replying_to := replying_to.map (·.author)
    replying_to_replying_to := replying_to.bind (·.refResolvedContent)
    weight := calculate_base_weight author (replying_to.map (·.author)) }

/-- The serialized per-message structure produced by `Message.to_dict`. -/
structure MsgDict where
  author : String
  author_id : String
  message : String
  message_id : Nat
  replying_to : Option String
  replying_to_replying_to : Option String
  weight : ℚ
deriving DecidableEq, Repr

/-- Source `Message.to_dict`. -/
def Message.to_dict (m : Message) : MsgDict :=
  { author := m.author.name
    author_id := toString m.author.id
    message := m.message
    message_id := m.message_id
    replying_to := m.replying_to.map (fun a => toString a.id)
    replying_to_replying_to := m.replying_to_replying_to
    weight := m.weight }

/-- A JSON value sitting in the `picked_message` field: a string, a number,
or null/absent. -/
inductive JVal where
  | null : JVal
  | str (s : String) : JVal
  | num (n : Nat) : JVal
deriving DecidableEq, Repr

/-- Python truthiness of a `picked_message` value (`if picked_message_id:`). -/
def jvTruthy : JVal → Bool
  | .null => false
  | .str s => s != ""
  | .num n => n != 0

/-- Python `str(...)` on a `picked_message` value, as used by the id
comparison `str(msg.message_id) == str(picked_message_id)`. -/
def canonId : JVal → String
  | .null => "None"
  | .str s => s
  | .num n => toString n

/-- Python `str.strip()` (no arguments): drop leading and trailing
whitespace.  Defined over the character list so it is kernel-computable. -/
def pyStrip (s : String) : String :=
  ⟨((s.data.dropWhile Char.isWhitespace).reverse.dropWhile
      Char.isWhitespace).reverse⟩

/-- Python `str.startswith(prefixStr)` over the character lists. -/
def pyStartsWith (pre s : String) : Bool :=
  List.isPrefixOf pre.data s.data

/-- The linear scan
`next((msg for msg in self.message_array if str(msg.message_id) == str(picked_message_id)), None)`. -/
def find_by_id (buf : List Message) (pid : JVal) : Option Message :=
  buf.find? (fun m => toString m.message_id == canonId pid)

/-- Index of the first record matching a picked id (specification device for
reasoning about `find_by_id` and the in-place weight mutation). -/
def matchIdx (pid : JVal) : List Message → Option Nat
  | [] => none
  | m :: rest =>
      if toString m.message_id == canonId pid then some 0
      else (matchIdx pid rest).map (· + 1)

/-- In-place weight mutation `picked_message.weight *= factor`: the first
record whose id matches gets its weight multiplied, all others untouched. -/
def decayFirst (pid : JVal) (factor : ℚ) : List Message → List Message
  | [] => []
  | m :: rest =>
      if toString m.message_id == canonId pid then
        { m with weight := m.weight * factor } :: rest
      else m :: decayFirst pid factor rest

/-- The bounded append performed by `on_message`:
`if len(self.message_array) >= self.MESSAGE_MEMORY: self.message_array.pop(0)`
then `append(msg)`. -/
def appendBounded (N : Nat) (buf : List Message) (m : Message) : List Message :=
  (if buf.length ≥ N then buf.tail else buf) ++ [m]

/-- A sequence of `on_message`-style appends, oldest first. -/
def runAppends (N : Nat) (buf : List Message) (xs : List Message) : List Message :=
  xs.foldl (appendBounded N) buf

theorem appendBounded_eq_of_lt {N : Nat} {buf : List Message} {m : Message}
    (h : buf.length < N) : appendBounded N buf m = buf ++ [m] := by
  simp [appendBounded, Nat.not_le.mpr h]

theorem runAppends_eq_drop (N : Nat) (xs : List Message) :
    ∀ b0 : List Message, b0.length ≤ N → 1 ≤ N →
      runAppends N b0 xs = (b0 ++ xs).drop ((b0 ++ xs).length - N) := by
  induction xs with
  | nil =>
      intro b0 hb hN
      simp [runAppends, Nat.sub_eq_zero_of_le hb]
  | cons x xs ih =>
      intro b0 hb hN
      have step : runAppends N b0 (x :: xs) = runAppends N (appendBounded N b0 x) xs := rfl
      rcases Nat.lt_or_ge b0.length N with hlt | hge
      · rw [step, appendBounded_eq_of_lt hlt,
          ih (b0 ++ [x]) (by simpa using Nat.succ_le_of_lt hlt) hN]
        simp
      · have heq : b0.length = N := Nat.le_antisymm hb hge
        have hne : b0 ≠ [] := by
          intro h0
          rw [h0] at heq
          simp at heq
          omega
        obtain ⟨hd, tl, rfl⟩ := List.exists_cons_of_ne_nil hne
        have hge' : N ≤ (hd :: tl).length := hge
        have habs : appendBounded N (hd :: tl) x = tl ++ [x] := by
          have hN' : N ≤ tl.length + 1 := by simpa using hge'
          simp [appendBounded, hN']
        rw [step, habs, ih (tl ++ [x]) (by simp at heq ⊢; omega) hN]
        have hlen : tl.length + 1 = N := by simpa using heq
        have h1 : (tl ++ [x] ++ xs).length - N = xs.length := by
          simp; omega
        have h2 : ((hd :: tl) ++ x :: xs).length - N = xs.length + 1 := by
          simp; omega
        rw [h1, h2]
        have h3 : ((hd :: tl) ++ x :: xs) = hd :: (tl ++ x :: xs) := rfl
        rw [h3, List.drop_succ_cons]
        simp

/-- The per-record recency multiplier of `prepare_messages_for_ai`, with the
index comparisons carried out over `Int` exactly as Python evaluates
`idx == len(self.message_array) - k`. -/
def weightMultiplier (botUser : Author) (len idx : Nat) (m : Message) : ℚ :=
  if m.author = botUser then 0
  else if (idx : Int) = (len : Int) - 1 then 8/10
  else if (idx : Int) = (len : Int) - 2 then 7/10
  else if (idx : Int) = (len : Int) - 3 then 6/10
  else if (idx : Int) = (len : Int) - 4 then 5/10
  else 4/10

/-- Source `GPTBot.prepare_messages_for_ai`: serialize each record via `to_dict` and
scale the weight of the serialized copy (`msg_dict['weight'] *= ...`) by its
recency multiplier.  The stored records are untouched (the source mutates
only the fresh dict), hence this embedding is a pure function of the buffer. -/
def prepare_messages_for_ai (botUser : Author) (buf : List Message) : List MsgDict :=
  buf.enum.map (fun p =>
    let d := p.2.to_dict
    { d with weight := d.weight * weightMultiplier botUser buf.length p.1 p.2 })

/-- The recency-multiplier table of spec §4.3, indexed by distance from the
newest end (0 = newest).  Stated from the spec's words, to be compared with
the `weightMultiplier` branch structure of the source. -/
def specRecencyMult : Nat → ℚ
  | 0 => 8/10
  | 1 => 7/10
  | 2 => 6/10
  | 3 => 5/10
  | _ => 4/10

/-- One outcome of a `chat.completions.create` call, after the JSON parse of
its payload: either a parsed `{response, picked_message}` object, or an
exception (network error, malformed payload, schema violation) with its
message text. -/
inductive CompletionOutcome where
  | ok (response : String) (picked : JVal) : CompletionOutcome
  | err (msg : String) : CompletionOutcome
deriving DecidableEq, Repr

/-- The dict returned by `GPTBot.get_ai_response`. -/
structure AiResponse where
  response : String
  picked_message : JVal
deriving DecidableEq, Repr

/-- Source `GPTBot.get_ai_response`, threaded over the list of completion-service
outcomes the recursion would consume (one per attempt).  Returns the produced
dict together with the message array after the in-place weight mutations;
`none` only when the outcome list is exhausted (fuel artifact). -/
def get_ai_response (botUser : Author) (buf : List Message) :
    List CompletionOutcome → Option (AiResponse × List Message)
  | [] => none
  | .err e :: _ =>
      some ({ response := "", picked_message := .str ("OpenAI API Error: " ++ e) }, buf)
  | .ok resp picked :: rest =>
      if jvTruthy picked then
        match find_by_id buf picked with
        | some pm =>
            let buf2 := decayFirst picked (1/2) buf
            if pyStrip resp == pyStrip pm.message
                || buf.any (fun m => pyStrip resp == pyStrip m.message) then
              get_ai_response botUser buf2 rest
            else
              some ({ response := resp, picked_message := picked }, buf2)
        | none => some ({ response := resp, picked_message := picked }, buf)
      else
        some ({ response := resp, picked_message := picked }, buf)

/-- Source `GPTBot.is_night_time`, as a function of the local hour. -/
def is_night_time (hour : Nat) : Bool :=
  2 ≤ hour && hour < 8

/-- The mutable bot state the embedded core reads and writes. -/
structure BotState where
  botUser : Author
  channel_id : Nat
  message_array : List Message
  MESSAGE_MEMORY : Nat
  bot_mention_pattern : Option String
  DEBUG : Bool
  NIGHT_MODE_ENABLED : Bool
deriving DecidableEq, Repr

/-- A raw gateway message as consumed by `on_message`: channel, author,
content, id, and the resolved replied-to message when
`message.reference` exists and resolved. -/
structure InboundMsg where
  channel_id : Nat
  author : Author
  content : String
  id : Nat
  resolvedRef : Option RefInfo
deriving DecidableEq, Repr

/-- The `on_message` handler's buffer mutation: accept messages on the bot's
channel, not authored by the bot itself, not starting with `#`; construct the
record, scale its weight by 1.4 when the bot's mention string occurs in the
content, and append with FIFO eviction. -/
def on_message (st : BotState) (im : InboundMsg) : BotState :=
  if im.channel_id == st.channel_id && !(im.author == st.botUser)
      && !(pyStartsWith "#" im.content) then
    let m := mkMessage im.author im.content im.id im.resolvedRef
    let m :=
      match st.bot_mention_pattern with
      | some p =>
          if decide (p.data <:+: im.content.data) then
            { m with weight := m.weight * (14/10) }
          else m
      | none => m
    { st with message_array := appendBounded st.MESSAGE_MEMORY st.message_array m }
  else st

/-- A raw history message as consumed by `update_message_history`. -/
structure HistMsg where
  author : Author
  content : String
  id : Nat
  resolvedRef : Option RefInfo
deriving DecidableEq, Repr

/-- The loop body of `update_message_history` over the newest-first fetch:
keep a message when `message.content[0] != '#'` and it is not self-authored.
Indexing `content[0]` on an empty string raises `IndexError`, embedded as
`Except.error`. -/
def histScan (botUser : Author) : List HistMsg → Except String (List Message)
  | [] => .ok []
  | h :: rest =>
      match h.content.data with
      | [] => .error "IndexError: string index out of range"
      | c :: _ =>
          if c != '#' && !(h.author == botUser) then
            (histScan botUser rest).map
              (fun ms => mkMessage h.author h.content h.id h.resolvedRef :: ms)
          else histScan botUser rest

/-- Source `GPTBot.update_message_history`: on success, replace the buffer with the
filtered fetch reversed to oldest-first; an exception anywhere in the loop is
caught by the surrounding handler, which logs and leaves the buffer as it
was (the assignment `self.message_array = messages` is never reached). -/
def update_message_history (botUser : Author) (old : List Message)
    (hist : List HistMsg) : List Message :=
  match histScan botUser hist with
  | .ok ms => ms.reverse
  | .error _ => old

/-- The silence sentinels of `send_responses`. -/
def silenceSentinels : List String :=
  ["*SILENCE*", "*END OF CONVERSATION*", "", "\n"]

/-- What the environment does during one `send_responses` cycle. -/
structure TickInput where
  outcomes : List CompletionOutcome
  sendFails : Bool
  debugSendFails : Bool
  hour : Nat
  nightRoll : Nat
  normalRoll : Nat
deriving DecidableEq, Repr

/-- A `channel.send` attempt: the text and, when sent as a reply, the raw
picked id passed to `discord.MessageReference`. -/
structure Emission where
  text : String
  reference : Option JVal
deriving DecidableEq, Repr

/-- Observable result of one `send_responses` cycle: the buffer afterwards,
the main send attempt (if any) and whether it succeeded, and the computed
delay when the cycle reached the delay/countdown step (`none` when an
exception skipped it). -/
structure TickResult where
  buf : List Message
  emission : Option Emission
  emissionOk : Bool
  delay : Option Nat
deriving DecidableEq, Repr

/-- The delay drawn at step 3 of the loop: night range when night mode is on
and the local hour is in [2,8), else the normal range. -/
def computeDelay (st : BotState) (inp : TickInput) : Nat :=
  if st.NIGHT_MODE_ENABLED && is_night_time inp.hour then inp.nightRoll
  else inp.normalRoll

/-- The tail of an emitting cycle after a successful `channel.send`: the
optional debug echo (whose own send failure also aborts the cycle via the
outer handler), then the delay/countdown step. -/
def afterMainSend (st : BotState) (buf : List Message) (em : Emission)
    (inp : TickInput) : TickResult :=
  if st.DEBUG && inp.debugSendFails then
    { buf := buf, emission := some em, emissionOk := true, delay := none }
  else
    { buf := buf, emission := some em, emissionOk := true,
      delay := some (computeDelay st inp) }

/-- A `channel.send` attempt inside the loop's `try`: a transport failure
raises, lands in the `except` handler, and the cycle ends with the delay
step skipped. -/
def attemptSend (st : BotState) (buf : List Message) (em : Emission)
    (inp : TickInput) : TickResult :=
  if inp.sendFails then
    { buf := buf, emission := some em, emissionOk := false, delay := none }
  else afterMainSend st buf em inp

/-- One iteration of the infinite `while True` loop of
`GPTBot.send_responses`; `none` only when the completion-outcome fuel runs
out inside `get_ai_response` (model artifact). -/
def sendResponsesTick (st : BotState) (inp : TickInput) : Option TickResult :=
  match get_ai_response st.botUser st.message_array inp.outcomes with
  | none => none
  | some (ar, buf1) =>
      some (
        if ar.response != "" && !(silenceSentinels.contains (pyStrip ar.response)) then
          if jvTruthy ar.picked_message then
            match find_by_id buf1 ar.picked_message with
            | some _ =>
                attemptSend st (decayFirst ar.picked_message (3/10) buf1)
                  { text := ar.response, reference := some ar.picked_message } inp
            | none =>
                attemptSend st buf1 { text := ar.response, reference := none } inp
          else
            attemptSend st buf1 { text := ar.response, reference := none } inp
        else
          { buf := buf1, emission := none, emissionOk := true,
            delay := some (computeDelay st inp) })

/-- The bot state carried into the next loop iteration after a cycle. -/
def nextState (st : BotState) (r : TickResult) : BotState :=
  { st with message_array := r.buf }

/-! Concrete fixtures used by witnesses and counterexamples. -/

/-- A human participant. -/
def userA : Author := ⟨11, "alice", false⟩

/-- Another human participant. -/
def userB : Author := ⟨12, "bob", false⟩

/-- The bot's own user. -/
def botUser0 : Author := ⟨99, "botty", true⟩

/-- A three-record buffer (ids 1, 2, 3; base weights 1). -/
def sampleBuf : List Message :=
  [mkMessage userA "a" 1 none, mkMessage userB "hello" 2 none,
   mkMessage userA "c" 3 none]

/-- A concrete bot state over `sampleBuf`. -/
def stEx : BotState := ⟨botUser0, 5, sampleBuf, 10, none, false, true⟩

/-! Helper lemmas. -/

theorem matchIdx_decayFirst (pid pid' : JVal) (f : ℚ) (buf : List Message) :
    matchIdx pid (decayFirst pid' f buf) = matchIdx pid buf := by
  induction buf with
  | nil => rfl
  | cons m rest ih =>
      by_cases h' : (toString m.message_id == canonId pid') = true
      · simp [decayFirst, h', matchIdx]
      · simp only [decayFirst, h', Bool.false_eq_true, if_false]
        simp [matchIdx, ih]

theorem matchIdx_lt (pid : JVal) (buf : List Message) (i : Nat)
    (h : matchIdx pid buf = some i) : i < buf.length := by
  induction buf generalizing i with
  | nil => simp [matchIdx] at h
  | cons m rest ih =>
      by_cases hm : (toString m.message_id == canonId pid) = true
      · simp [matchIdx, hm] at h
        simp [← h]
      · simp only [matchIdx, hm, Bool.false_eq_true, if_false] at h
        rcases h' : matchIdx pid rest with _ | i'
        · rw [h'] at h; simp at h
        · rw [h'] at h
          simp at h
          have := ih i' h'
          simp
          omega

theorem find_by_id_of_matchIdx (pid : JVal) (buf : List Message) (i : Nat)
    (h : matchIdx pid buf = some i) : find_by_id buf pid = buf.get? i := by
  induction buf generalizing i with
  | nil => simp [matchIdx] at h
  | cons m rest ih =>
      by_cases hm : (toString m.message_id == canonId pid) = true
      · simp [matchIdx, hm] at h
        simp [find_by_id, List.find?, hm, ← h]
      · simp only [matchIdx, hm, Bool.false_eq_true, if_false] at h
        rcases h' : matchIdx pid rest with _ | i'
        · rw [h'] at h; simp at h
        · rw [h'] at h
          simp at h
          have hrec := ih i' h'
          simp [find_by_id, List.find?, hm] at hrec ⊢
          rw [← h]
          simpa using hrec

theorem decayFirst_get? (pid : JVal) (f : ℚ) (buf : List Message) (i : Nat)
    (h : matchIdx pid buf = some i) (j : Nat) :
    (decayFirst pid f buf).get? j =
      if j = i then
        (buf.get? j).map (fun m => { m with weight := m.weight * f })
      else buf.get? j := by
  induction buf generalizing i j with
  | nil => simp [matchIdx] at h
  | cons m rest ih =>
      by_cases hm : (toString m.message_id == canonId pid) = true
      · have hi : i = 0 := by simp [matchIdx, hm] at h; omega
        subst hi
        cases j with
        | zero => simp [decayFirst, hm]
        | succ j => simp [decayFirst, hm]
      · simp only [matchIdx, hm, Bool.false_eq_true, if_false] at h
        rcases h' : matchIdx pid rest with _ | i'
        · rw [h'] at h; simp at h
        · rw [h'] at h
          simp at h
          subst h
          have hd : decayFirst pid f (m :: rest) = m :: decayFirst pid f rest := by
            simp [decayFirst, hm]
          cases j with
          | zero => simp [hd]
          | succ j =>
              rw [hd, List.get?_cons_succ, ih i' h' j]
              by_cases hji : j = i'
              · simp [hji]
              · simp [hji]

theorem tick_isSome_of (st : BotState) (inp : TickInput)
    (h : (get_ai_response st.botUser st.message_array inp.outcomes).isSome = true) :
    (sendResponsesTick st inp).isSome = true := by
  rcases hg : get_ai_response st.botUser st.message_array inp.outcomes with _ | p
  · rw [hg] at h; simp at h
  · simp [sendResponsesTick, hg]

/-! Claim theorems. -/

/-- C8: every `Message` construction computes weight 1.0 for a non-bot author
and 0.5 for a bot author, multiplied by 1.2 exactly when a replied-to message
exists and its author is not a bot, and the result is strictly positive. -/
theorem base_weight_contract (a : Author) (r : Option Author) :
    calculate_base_weight a r =
      (if a.bot then (1 : ℚ)/2 else 1) *
        (match r with
          | some x => if x.bot then (1 : ℚ) else 12/10
          | none => 1)
      ∧ 0 < calculate_base_weight a r := by
  obtain ⟨ai, an, ab⟩ := a
  rcases r with _ | ⟨xi, xn, xb⟩
  · cases ab <;>
      exact ⟨by simp [calculate_base_weight],
        by norm_num [calculate_base_weight]⟩
  · cases ab <;> cases xb <;>
      exact ⟨by simp [calculate_base_weight],
        by norm_num [calculate_base_weight]⟩

/-- C7: under the `on_message` append discipline with capacity `N`, the
buffer built from any sequence of appends never exceeds length `N` (at every
point along the sequence), and once at least `N` records have been appended
the buffer holds exactly the most recent `N` of them in original relative
order. -/
theorem buffer_capacity_fifo (N : Nat) (xs : List Message) (hN : 1 ≤ N) :
    (∀ k, (runAppends N [] (xs.take k)).length ≤ N) ∧
      (N ≤ xs.length → runAppends N [] xs = xs.drop (xs.length - N)) := by
  constructor
  · intro k
    rw [runAppends_eq_drop N (xs.take k) [] (by simp) hN]
    simp only [List.nil_append, List.length_drop, List.length_take]
    omega
  · intro _
    rw [runAppends_eq_drop N xs [] (by simp) hN]
    simp

/-- Witness for C7 at `N = 2` and three concrete appends. -/
theorem buffer_capacity_fifo_witness :
    (runAppends 2 []
        ([mkMessage userA "a" 1 none, mkMessage userB "b" 2 none,
          mkMessage userA "c" 3 none].take 2)).length ≤ 2 ∧
    runAppends 2 []
        [mkMessage userA "a" 1 none, mkMessage userB "b" 2 none,
         mkMessage userA "c" 3 none] =
      [mkMessage userB "b" 2 none, mkMessage userA "c" 3 none] := by
  refine ⟨(buffer_capacity_fifo 2 _ (by decide)).1 2, ?_⟩
  have h := (buffer_capacity_fifo 2
      [mkMessage userA "a" 1 none, mkMessage userB "b" 2 none,
       mkMessage userA "c" 3 none] (by decide)).2 (by decide)
  simpa using h

/-- C6: `prepare_messages_for_ai` serializes the buffer in order (one dict
per record), the dict's weight being the stored weight times the recency
multiplier — 0.8/0.7/0.6/0.5 for the four newest positions and 0.4 beyond,
overridden to 0.0 for a record authored by the bot itself, which nonetheless
stays in the output.  The embedding is a pure function of the buffer because
the source scales only the freshly-built `to_dict` copy, so stored weights
are untouched. -/
theorem prepare_effective_weights (botUser : Author) (buf : List Message)
    (j : Nat) (m : Message) (hj : buf.get? j = some m) :
    (prepare_messages_for_ai botUser buf).length = buf.length ∧
    (prepare_messages_for_ai botUser buf).get? j =
      some { m.to_dict with
              weight := m.weight *
                (if m.author = botUser then 0
                 else specRecencyMult (buf.length - 1 - j)) } := by
  have hjl : j < buf.length := by
    by_contra hge
    rw [List.get?_eq_none.mpr (Nat.le_of_not_lt hge)] at hj
    exact Option.noConfusion hj
  constructor
  · simp [prepare_messages_for_ai]
  · have hmul : weightMultiplier botUser buf.length j m =
        (if m.author = botUser then 0
         else specRecencyMult (buf.length - 1 - j)) := by
      by_cases hbot : m.author = botUser
      · simp [weightMultiplier, hbot]
      · rw [weightMultiplier, if_neg hbot, if_neg hbot]
        split_ifs with h1 h2 h3 h4
        · have hd : buf.length - 1 - j = 0 := by omega
          rw [hd]; rfl
        · have hd : buf.length - 1 - j = 1 := by omega
          rw [hd]; rfl
        · have hd : buf.length - 1 - j = 2 := by omega
          rw [hd]; rfl
        · have hd : buf.length - 1 - j = 3 := by omega
          rw [hd]; rfl
        · obtain ⟨d, hd⟩ : ∃ d, buf.length - 1 - j = d + 4 :=
            ⟨buf.length - 1 - j - 4, by omega⟩
          rw [hd]; rfl
    simp only [prepare_messages_for_ai, List.get?_map, List.get?_enum, hj,
      Option.map_some']
    rw [hmul]
    rfl

/-- A six-record buffer with a bot-authored record in the middle. -/
def sixBuf : List Message :=
  [mkMessage userA "u" 1 none, mkMessage userB "v" 2 none,
   mkMessage userA "w" 3 none, mkMessage botUser0 "x" 4 none,
   mkMessage userA "y" 5 none, mkMessage userB "z" 6 none]

/-- Witness for C6 on a six-record buffer with a bot-authored record in the
middle, checking the newest position (0.8) and the bot override (0.0). -/
theorem prepare_effective_weights_witness :
    (prepare_messages_for_ai botUser0
        sixBuf).length = 6 ∧
    (prepare_messages_for_ai botUser0
        sixBuf).get? 5 =
      some { (mkMessage userB "z" 6 none).to_dict with
              weight := (mkMessage userB "z" 6 none).weight * (8/10) } ∧
    (prepare_messages_for_ai botUser0
        sixBuf).get? 3 =
      some { (mkMessage botUser0 "x" 4 none).to_dict with
              weight := (mkMessage botUser0 "x" 4 none).weight * 0 } := by
  refine ⟨?_, ?_, ?_⟩
  · have h := (prepare_effective_weights botUser0 sixBuf 5
        (mkMessage userB "z" 6 none) rfl).1
    simpa [sixBuf] using h
  · have h := (prepare_effective_weights botUser0
        sixBuf
        5 (mkMessage userB "z" 6 none) rfl).2
    simpa [specRecencyMult, show userB ≠ botUser0 from by decide] using h
  · have h := (prepare_effective_weights botUser0
        sixBuf
        3 (mkMessage botUser0 "x" 4 none) rfl).2
    simpa using h

/-- C4: when the completion result picks a message found in the buffer and
the trimmed generated response equals the picked message's trimmed text or
the trimmed text of any buffered message, the selector discards the result
and retries the entire completion call (on the buffer whose picked record
has already received its ×0.5 selection decay). -/
theorem echo_retry (botUser : Author) (buf : List Message) (resp : String)
    (pid : JVal) (rest : List CompletionOutcome) (pm : Message)
    (htr : jvTruthy pid = true)
    (hfind : find_by_id buf pid = some pm)
    (hecho : (pyStrip resp == pyStrip pm.message
        || buf.any (fun m => pyStrip resp == pyStrip m.message)) = true) :
    get_ai_response botUser buf (.ok resp pid :: rest) =
      get_ai_response botUser (decayFirst pid (1/2) buf) rest := by
  simp [get_ai_response, htr, hfind, hecho]

/-- Witness for C4: the completion echoes message 2's text `"hello"`, so the
run equals a fresh run on the remaining outcomes. -/
theorem echo_retry_witness :
    jvTruthy (JVal.str "2") = true ∧
    find_by_id sampleBuf (.str "2") = some (mkMessage userB "hello" 2 none) ∧
    (pyStrip "hello" == pyStrip (mkMessage userB "hello" 2 none).message
      || sampleBuf.any (fun m => pyStrip "hello" == pyStrip m.message)) = true ∧
    get_ai_response botUser0 sampleBuf
        [.ok "hello" (.str "2"), .ok "fresh" (.str "2")] =
      get_ai_response botUser0 (decayFirst (.str "2") (1/2) sampleBuf)
        [.ok "fresh" (.str "2")] :=
  ⟨rfl, rfl, by decide,
    echo_retry botUser0 sampleBuf "hello" (.str "2") [.ok "fresh" (.str "2")]
      (mkMessage userB "hello" 2 none) rfl rfl (by decide)⟩

/-- C9: a failing completion call is swallowed by the selector, which
returns an empty response paired with the error text in the picked-message
slot; the scheduler then treats the cycle as silence — no send attempt — and
proceeds to the delay step. -/
theorem completion_failure_silence (st : BotState) (e : String)
    (rest : List CompletionOutcome) (inp : TickInput)
    (hout : inp.outcomes = .err e :: rest) :
    get_ai_response st.botUser st.message_array inp.outcomes =
      some ({ response := "",
              picked_message := .str ("OpenAI API Error: " ++ e) },
        st.message_array) ∧
    sendResponsesTick st inp =
      some { buf := st.message_array, emission := none, emissionOk := true,
             delay := some (computeDelay st inp) } := by
  have h1 : get_ai_response st.botUser st.message_array inp.outcomes =
      some ({ response := "",
              picked_message := .str ("OpenAI API Error: " ++ e) },
        st.message_array) := by
    rw [hout]
    rfl
  refine ⟨h1, ?_⟩
  simp [sendResponsesTick, h1, silenceSentinels]

/-- A concrete failing-completion cycle input. -/
def inpErr : TickInput := ⟨[.err "boom"], false, false, 12, 50, 20⟩

/-- Witness for C9 on a concrete transport error. -/
theorem completion_failure_silence_witness :
    inpErr.outcomes = CompletionOutcome.err "boom" :: [] ∧
    (get_ai_response stEx.botUser stEx.message_array inpErr.outcomes =
        some ({ response := "",
                picked_message := .str ("OpenAI API Error: " ++ "boom") },
          stEx.message_array) ∧
      sendResponsesTick stEx inpErr =
        some { buf := stEx.message_array, emission := none, emissionOk := true,
               delay := some (computeDelay stEx inpErr) }) :=
  ⟨rfl, completion_failure_silence stEx "boom" [] inpErr rfl⟩

theorem afterMainSend_emission (st : BotState) (buf : List Message)
    (em : Emission) (inp : TickInput) :
    (afterMainSend st buf em inp).emission = some em := by
  unfold afterMainSend
  split <;> rfl

/-- C1 counterexample: with picked id `"999"` absent from the buffer, the
selector's returned pair still carries `"999"` in the picked-message slot —
not an absent/null target as the claim states. -/
theorem selector_unmatched_pick_cex :
    find_by_id sampleBuf (.str "999") = none ∧
    jvTruthy (.str "999") = true ∧
    (get_ai_response botUser0 sampleBuf [.ok "hi" (.str "999")]).map
        (fun p => p.1.picked_message) = some (JVal.str "999") ∧
    JVal.str "999" ≠ JVal.null :=
  ⟨rfl, rfl, rfl, by decide⟩

/-- C1 (amended): on a picked id with no buffer match the selector logs and
returns the generated response with the unmatched identifier still in the
pair and the buffer unchanged; the eventual emission is nonetheless
un-targeted, because the scheduler's own lookup fails too and it sends the
plain response (`reference := none`). -/
theorem selector_unmatched_pick (botUser : Author) (buf : List Message)
    (resp : String) (pid : JVal) (rest : List CompletionOutcome)
    (htr : jvTruthy pid = true)
    (hfind : find_by_id buf pid = none) :
    get_ai_response botUser buf (.ok resp pid :: rest) =
      some ({ response := resp, picked_message := pid }, buf) ∧
    ∀ (st : BotState) (inp : TickInput),
      st.botUser = botUser → st.message_array = buf →
      inp.outcomes = .ok resp pid :: rest →
      (resp != "" && !(silenceSentinels.contains (pyStrip resp))) = true →
      inp.sendFails = false →
      sendResponsesTick st inp =
        some (afterMainSend st buf { text := resp, reference := none } inp) ∧
      (afterMainSend st buf { text := resp, reference := none } inp).emission =
        some { text := resp, reference := none } := by
  have h1 : get_ai_response botUser buf (.ok resp pid :: rest) =
      some ({ response := resp, picked_message := pid }, buf) := by
    simp [get_ai_response, htr, hfind]
  refine ⟨h1, ?_⟩
  intro st inp hbot hbuf hout hsil hsf
  refine ⟨?_, afterMainSend_emission st buf _ inp⟩
  rw [sendResponsesTick.eq_def, hout, hbot, hbuf, h1]
  have hsplit := hsil
  rw [Bool.and_eq_true] at hsplit
  have hne : ¬ resp = "" := by simpa using hsplit.1
  have hnc : pyStrip resp ∉ silenceSentinels := by simpa using hsplit.2
  simp [hne, hnc, htr, hfind, attemptSend, hsf]

/-- A concrete unmatched-pick cycle input. -/
def inp999 : TickInput := ⟨[.ok "hi" (.str "999")], false, false, 12, 50, 20⟩

/-- Witness for C1's amended claim on a concrete unmatched pick. -/
theorem selector_unmatched_pick_witness :
    jvTruthy (.str "999") = true ∧
    find_by_id sampleBuf (.str "999") = none ∧
    get_ai_response botUser0 sampleBuf [.ok "hi" (.str "999")] =
      some ({ response := "hi", picked_message := .str "999" }, sampleBuf) ∧
    sendResponsesTick stEx inp999 =
      some (afterMainSend stEx sampleBuf { text := "hi", reference := none }
        inp999) ∧
    (afterMainSend stEx sampleBuf { text := "hi", reference := none }
        inp999).emission = some { text := "hi", reference := none } := by
  have h := selector_unmatched_pick botUser0 sampleBuf "hi" (.str "999") []
    rfl rfl
  have h2 := h.2 stEx inp999 rfl rfl rfl (by decide) rfl
  exact ⟨rfl, rfl, h.1, h2.1, h2.2⟩

/-- A concrete cycle input whose `channel.send` raises. -/
def inpSendFail : TickInput := ⟨[.ok "zzz" (.str "2")], true, false, 12, 50, 20⟩

/-- C2 counterexample: in a cycle whose `channel.send` raises, the loop body
lands in the `except` handler and the delay/countdown step of that cycle is
skipped (`delay = none`), contradicting the claim that the loop still
proceeds to the delay step that cycle. -/
theorem scheduler_send_failure_cex :
    inpSendFail.sendFails = true ∧
    (sendResponsesTick stEx inpSendFail).map
        (fun r => (r.emission.isSome, r.delay)) = some (true, none) :=
  ⟨rfl, rfl⟩

/-- C2 (amended): a transport failure during emission is caught and the loop
does not terminate — any further cycle still steps — but the failing cycle
skips the delay-computation/countdown step entirely and control returns to
the top of the loop for the next dispatch. -/
theorem scheduler_send_failure (st : BotState) (inp : TickInput)
    (r : TickResult)
    (htick : sendResponsesTick st inp = some r)
    (hfail : inp.sendFails = true)
    (hem : r.emission.isSome = true) :
    r.delay = none ∧ r.emissionOk = false ∧
      ∀ inp2 : TickInput,
        (get_ai_response st.botUser r.buf inp2.outcomes).isSome = true →
        (sendResponsesTick (nextState st r) inp2).isSome = true := by
  have hcont : ∀ inp2 : TickInput,
      (get_ai_response st.botUser r.buf inp2.outcomes).isSome = true →
      (sendResponsesTick (nextState st r) inp2).isSome = true := fun inp2 h2 =>
    tick_isSome_of (nextState st r) inp2 (by simpa [nextState] using h2)
  rcases hga : get_ai_response st.botUser st.message_array inp.outcomes with
    _ | ⟨ar, buf1⟩
  · rw [sendResponsesTick.eq_def, hga] at htick
    exact absurd htick (by simp)
  · rw [sendResponsesTick.eq_def, hga] at htick
    have hr := Option.some.inj htick
    have key : r.delay = none ∧ r.emissionOk = false := by
      split at hr
      · split at hr
        · split at hr
          · rw [← hr]
            simp [attemptSend, hfail]
          · rw [← hr]
            simp [attemptSend, hfail]
        · rw [← hr]
          simp [attemptSend, hfail]
      · rw [← hr] at hem
        simp at hem
    exact ⟨key.1, key.2, hcont⟩

/-- The result of the concrete failing-send cycle `inpSendFail` over `stEx`:
message 2 has absorbed both decays, the send attempt targeted it and failed,
and the delay step was skipped. -/
def rFail : TickResult :=
  { buf := [mkMessage userA "a" 1 none,
      { mkMessage userB "hello" 2 none with
          weight := (mkMessage userB "hello" 2 none).weight * (1/2) * (3/10) },
      mkMessage userA "c" 3 none]
    emission := some ⟨"zzz", some (.str "2")⟩
    emissionOk := false
    delay := none }

/-- Witness for C2's amended claim on the concrete failing-send cycle. -/
theorem scheduler_send_failure_witness :
    sendResponsesTick stEx inpSendFail = some rFail ∧
    rFail.delay = none ∧ rFail.emissionOk = false ∧
    (sendResponsesTick (nextState stEx rFail) inpErr).isSome = true := by
  have h := scheduler_send_failure stEx inpSendFail rFail rfl rfl rfl
  exact ⟨rfl, h.1, h.2.1, h.2.2 inpErr rfl⟩

theorem appendBounded_getLast? (N : Nat) (buf : List Message) (m : Message) :
    (appendBounded N buf m).getLast? = some m := by
  simp [appendBounded]

/-- C10: an accepted inbound message whose content contains the bot's
mention string is appended with weight `base × 1.4`, where `base` is the
construction-contract weight; without the mention the unmodified base weight
is appended. -/
theorem mention_weight_boost (st : BotState) (im : InboundMsg) (p : String)
    (hp : st.bot_mention_pattern = some p)
    (hch : (im.channel_id == st.channel_id) = true)
    (hau : (im.author == st.botUser) = false)
    (hcp : pyStartsWith "#" im.content = false) :
    (on_message st im).message_array =
      appendBounded st.MESSAGE_MEMORY st.message_array
        { mkMessage im.author im.content im.id im.resolvedRef with
          weight :=
            calculate_base_weight im.author (im.resolvedRef.map (·.author)) *
              (if p.data <:+: im.content.data then 14/10 else 1) } ∧
    ((on_message st im).message_array.getLast?).map (fun m => m.weight) =
      some (calculate_base_weight im.author (im.resolvedRef.map (·.author)) *
        (if p.data <:+: im.content.data then 14/10 else 1)) := by
  have h1 : (on_message st im).message_array =
      appendBounded st.MESSAGE_MEMORY st.message_array
        { mkMessage im.author im.content im.id im.resolvedRef with
          weight :=
            calculate_base_weight im.author (im.resolvedRef.map (·.author)) *
              (if p.data <:+: im.content.data then 14/10 else 1) } := by
    by_cases hin : p.data <:+: im.content.data
    · simp [on_message, hch, hau, hcp, hp, hin, mkMessage]
    · simp [on_message, hch, hau, hcp, hp, hin, mkMessage]
  refine ⟨h1, ?_⟩
  rw [h1, appendBounded_getLast?]
  rfl

/-- The bot state with the mention string set (after `on_ready`). -/
def stM : BotState := ⟨botUser0, 5, sampleBuf, 10, some "<@99>", false, true⟩

/-- Witness for C10: one accepted message carrying `<@99>` (boosted ×1.4)
and one without (unmodified base weight). -/
theorem mention_weight_boost_witness :
    ((on_message stM ⟨5, userA, "yo <@99> hi", 42, none⟩).message_array.getLast?).map
        (fun m => m.weight) =
      some (calculate_base_weight userA none * (14/10)) ∧
    ((on_message stM ⟨5, userA, "plain", 43, none⟩).message_array.getLast?).map
        (fun m => m.weight) =
      some (calculate_base_weight userA none * 1) := by
  have h1 := (mention_weight_boost stM ⟨5, userA, "yo <@99> hi", 42, none⟩
    "<@99>" rfl rfl rfl rfl).2
  have h2 := (mention_weight_boost stM ⟨5, userA, "plain", 43, none⟩
    "<@99>" rfl rfl rfl rfl).2
  constructor
  · simpa [show ("<@99>".data <:+: "yo <@99> hi".data) from by decide] using h1
  · simpa [show ¬("<@99>".data <:+: "plain".data) from by decide] using h2

/-- C3 (code bug): `update_message_history` filters with
`message.content[0] != '#'`, which raises `IndexError` on an empty text, so
a history containing an empty-text message aborts hydration — the handler
catches the error and the buffer is left as it was, unseeded — while a
well-formed history is filtered (command-prefixed and self-authored skipped)
and reversed to oldest-first as the claim describes. -/
theorem hydration_empty_text_bug :
    histScan botUser0 [⟨userA, "", 7, none⟩, ⟨userB, "valid", 8, none⟩] =
      .error "IndexError: string index out of range" ∧
    update_message_history botUser0 sampleBuf
      [⟨userA, "", 7, none⟩, ⟨userB, "valid", 8, none⟩] = sampleBuf ∧
    update_message_history botUser0 sampleBuf
      [⟨userA, "new", 7, none⟩, ⟨userA, "#cmd", 8, none⟩,
       ⟨botUser0, "self", 9, none⟩, ⟨userB, "old", 10, none⟩] =
      [mkMessage userB "old" 10 none, mkMessage userA "new" 7 none] :=
  ⟨rfl, rfl, rfl⟩

theorem attemptSend_buf (st : BotState) (buf : List Message) (em : Emission)
    (inp : TickInput) : (attemptSend st buf em inp).buf = buf := by
  unfold attemptSend afterMainSend
  split
  · rfl
  · split <;> rfl

theorem tick_emit (st : BotState) (inp : TickInput) (resp : String)
    (pid : JVal) (buf1 : List Message)
    (hga : get_ai_response st.botUser st.message_array inp.outcomes =
      some ({ response := resp, picked_message := pid }, buf1))
    (hcond : (resp != "" && !(silenceSentinels.contains (pyStrip resp))) = true)
    (hjv : jvTruthy pid = true) :
    sendResponsesTick st inp = some (
      match find_by_id buf1 pid with
      | some _ => attemptSend st (decayFirst pid (3/10) buf1)
          { text := resp, reference := some pid } inp
      | none => attemptSend st buf1 { text := resp, reference := none } inp) := by
  rw [sendResponsesTick.eq_def, hga]
  have hsplit := hcond
  rw [Bool.and_eq_true] at hsplit
  have hne : ¬ resp = "" := by simpa using hsplit.1
  have hnc : pyStrip resp ∉ silenceSentinels := by simpa using hsplit.2
  simp [hjv, hne, hnc]

/-- C5: when the completion result picks a buffered message (and the
response is neither an echo nor a silence sentinel), the selector multiplies
that record's stored weight by 0.5, and the dispatching cycle multiplies the
same record's weight by a further 0.3 — compounding to ×(3/20) = ×0.15 of
the original, 0.15 exactly when the record started at weight 1 — while every
other record is untouched at both stages. -/
theorem pick_decay_weights (st : BotState) (resp : String) (pid : JVal)
    (inp : TickInput) (r : TickResult) (i : Nat)
    (hout : inp.outcomes = [CompletionOutcome.ok resp pid])
    (hfail : inp.sendFails = false)
    (htr : jvTruthy pid = true)
    (hidx : matchIdx pid st.message_array = some i)
    (hecho : ∀ m ∈ st.message_array,
      (pyStrip resp == pyStrip m.message) = false)
    (hsil : (resp != "" && !(silenceSentinels.contains (pyStrip resp))) = true)
    (htick : sendResponsesTick st inp = some r) :
    get_ai_response st.botUser st.message_array inp.outcomes =
      some ({ response := resp, picked_message := pid },
        decayFirst pid (1/2) st.message_array) ∧
    (decayFirst pid (1/2) st.message_array).get? i =
      (st.message_array.get? i).map
        (fun m => { m with weight := m.weight * (1/2) }) ∧
    r.buf.get? i =
      (st.message_array.get? i).map
        (fun m => { m with weight := m.weight * (3/20) }) ∧
    ∀ j, j ≠ i → r.buf.get? j = st.message_array.get? j := by
  have hi : i < st.message_array.length := matchIdx_lt pid st.message_array i hidx
  obtain ⟨pm, hpm⟩ : ∃ pm, st.message_array.get? i = some pm := by
    rcases h : st.message_array.get? i with _ | pm
    · rw [List.get?_eq_none] at h; omega
    · exact ⟨pm, rfl⟩
  have hfind : find_by_id st.message_array pid = some pm := by
    rw [find_by_id_of_matchIdx pid st.message_array i hidx, hpm]
  have hmem : pm ∈ st.message_array := List.get?_mem hpm
  have hech1 : (pyStrip resp == pyStrip pm.message) = false := hecho pm hmem
  have hany : st.message_array.any
      (fun m => pyStrip resp == pyStrip m.message) = false := by
    rw [List.any_eq_false]
    intro m hm
    simp [hecho m hm]
  have hga : get_ai_response st.botUser st.message_array inp.outcomes =
      some ({ response := resp, picked_message := pid },
        decayFirst pid (1/2) st.message_array) := by
    rw [hout]
    simp [get_ai_response, htr, hfind, hech1, hany]
  have hidx1 : matchIdx pid (decayFirst pid (1/2) st.message_array) = some i := by
    rw [matchIdx_decayFirst]
    exact hidx
  have hsel : (decayFirst pid (1/2) st.message_array).get? i =
      (st.message_array.get? i).map
        (fun m => { m with weight := m.weight * (1/2) }) := by
    rw [decayFirst_get? pid (1/2) st.message_array i hidx i, if_pos rfl]
  have hget1 : (decayFirst pid (1/2) st.message_array).get? i =
      some { pm with weight := pm.weight * (1/2) } := by
    rw [hsel, hpm]
    rfl
  have hfind1 : find_by_id (decayFirst pid (1/2) st.message_array) pid =
      some { pm with weight := pm.weight * (1/2) } := by
    rw [find_by_id_of_matchIdx pid _ i hidx1, hget1]
  have htick' := tick_emit st inp resp pid
    (decayFirst pid (1/2) st.message_array) hga hsil htr
  have hrbuf : r.buf =
      decayFirst pid (3/10) (decayFirst pid (1/2) st.message_array) := by
    have h0 := htick.symm.trans htick'
    rw [hfind1] at h0
    have hr := Option.some.inj h0
    rw [hr]
    exact attemptSend_buf st _ _ inp
  refine ⟨hga, hsel, ?_, ?_⟩
  · rw [hrbuf, decayFirst_get? pid (3/10) _ i hidx1 i, if_pos rfl, hget1,
      hpm]
    simp only [Option.map_some', Option.some.injEq]
    have hw : pm.weight * (1/2) * (3/10) = pm.weight * (3/20) := by ring
    exact congrArg (fun w => ({ pm with weight := w } : Message)) hw
  · intro j hj
    rw [hrbuf, decayFirst_get? pid (3/10) _ i hidx1 j, if_neg hj,
      decayFirst_get? pid (1/2) _ i hidx j, if_neg hj]

/-- A concrete successful pick-and-send cycle input (night hour 3, so the
night roll 50 is the delay). -/
def inpOk : TickInput := ⟨[.ok "hi there" (.str "2")], false, false, 3, 50, 20⟩

/-- The result of the cycle `inpOk` over `stEx`: message 2 carries weight
1 × 0.5 × 0.3 and the reply was sent targeting it. -/
def rEx : TickResult :=
  { buf := [mkMessage userA "a" 1 none,
      { mkMessage userB "hello" 2 none with
          weight := (mkMessage userB "hello" 2 none).weight * (1/2) * (3/10) },
      mkMessage userA "c" 3 none]
    emission := some ⟨"hi there", some (.str "2")⟩
    emissionOk := true
    delay := some 50 }

/-- Witness for C5 on the concrete pick-and-send cycle: message 2 (weight 1)
drops to 1/2 at selection and 3/20 = 0.15 after dispatch; message 0 is
untouched. -/
theorem pick_decay_weights_witness :
    matchIdx (.str "2") stEx.message_array = some 1 ∧
    sendResponsesTick stEx inpOk = some rEx ∧
    (decayFirst (.str "2") (1/2) stEx.message_array).get? 1 =
      (stEx.message_array.get? 1).map
        (fun m => { m with weight := m.weight * (1/2) }) ∧
    rEx.buf.get? 1 =
      (stEx.message_array.get? 1).map
        (fun m => { m with weight := m.weight * (3/20) }) ∧
    rEx.buf.get? 0 = stEx.message_array.get? 0 := by
  have h := pick_decay_weights stEx "hi there" (.str "2") inpOk rEx 1
    rfl rfl rfl rfl (by decide) rfl rfl
  exact ⟨rfl, rfl, h.2.1, h.2.2.1, h.2.2.2 0 (by decide)⟩

end DiscordGPT
